import Mathlib

/-!
Shallow embedding of the conversion and catalog-loading logic of
`src/frontend/src/components/Converter.jsx`.

JSON values are modelled as an inductive type with rational numbers
standing for JavaScript numbers (the spec allows floating-point
tolerance).  Network and JSON-parsing effects are abstracted into an
environment record: each provider attempt maps to a fetch outcome, and
an abstract parse oracle maps body text to an optional JSON value
(`none` meaning `JSON.parse` throws).
-/

namespace Converter

/-- JSON values as produced by `JSON.parse`. -/
inductive Json where
  | null
  | bool (b : Bool)
  | num (q : ℚ)
  | str (s : String)
  | arr (xs : List Json)
  | obj (fields : List (String × Json))

/-- JavaScript truthiness of a parsed JSON value. -/
def jsTruthy : Json → Bool
  | .null => false
  | .bool b => b
  | .num q => decide (q ≠ 0)
  | .str s => decide (s ≠ "")
  | .arr _ => true
  | .obj _ => true

/-- Member access `j.k` on a parsed JSON value: `some v` when the value is an
object with field `k`, `none` when the access yields `undefined`. -/
def getField (j : Json) (k : String) : Option Json :=
  match j with
  | .obj fields => fields.lookup k
  | _ => none

/-- The `Object.keys` view of a parsed JSON value. -/
def jsObjectKeys : Json → List String
  | .obj fields => fields.map Prod.fst
  | .arr xs => (List.range xs.length).map toString
  | .str s => (List.range s.length).map toString
  | _ => []

/-- The result of JavaScript `parseFloat`: `NaN`, a finite number, or a signed
infinity (`parseFloat` accepts an `Infinity` literal). -/
inductive JsNumber where
  | nan
  | finite (q : ℚ)
  | posInf
  | negInf
deriving DecidableEq, Repr

/-- The `isNaN` test on a `parseFloat` result. -/
def jsIsNaN : JsNumber → Bool
  | .nan => true
  | _ => false

/-- The comparison `num <= 0` on a `parseFloat` result (`NaN <= 0` is false). -/
def jsLeZero : JsNumber → Bool
  | .nan => false
  | .finite q => decide (q ≤ 0)
  | .posInf => false
  | .negInf => true

/-- Leading-whitespace characters skipped by `parseFloat`. -/
def jsIsSpace (c : Char) : Bool :=
  c = ' ' || c = '\t' || c = '\n' || c = '\r'

/-- Numeric value of a digit list, most significant first. -/
def digitsToNat (ds : List Char) : ℕ :=
  ds.foldl (fun n c => 10 * n + (c.toNat - '0'.toNat)) 0

/-- Left list is an initial segment of the right list. -/
def leadsWith : List Char → List Char → Bool
  | [], _ => true
  | _ :: _, [] => false
  | a :: as, b :: bs => a = b && leadsWith as bs

/-- Exponent part accepted by `parseFloat` after the mantissa: `e`/`E`, an
optional sign, then digits; an incomplete exponent contributes nothing. -/
def parseExponent (cs : List Char) : ℤ :=
  match cs with
  | c :: rest =>
    if c = 'e' || c = 'E' then
      match rest with
      | '-' :: ds =>
        let d := ds.takeWhile Char.isDigit
        if d.isEmpty then 0 else -(digitsToNat d : ℤ)
      | '+' :: ds =>
        let d := ds.takeWhile Char.isDigit
        if d.isEmpty then 0 else (digitsToNat d : ℤ)
      | ds =>
        let d := ds.takeWhile Char.isDigit
        if d.isEmpty then 0 else (digitsToNat d : ℤ)
    else 0
  | [] => 0

/-- Apply a decimal exponent to a rational mantissa. -/
def applyExponent (mant : ℚ) (e : ℤ) : ℚ :=
  if 0 ≤ e then mant * (10 : ℚ) ^ e.toNat else mant / (10 : ℚ) ^ (-e).toNat

/-- Discrete scan of a `parseFloat` input: the sign, whether the literal is
`Infinity`, the integer-part digits, the fraction digits, and the remaining
characters (where an exponent may follow).  `none` when no numeric prefix
exists. -/
structure FloatScan where
  neg : Bool
  isInf : Bool
  ip : List Char
  fp : List Char
  rest : List Char
deriving DecidableEq, Repr

/-- Scanning stage of `parseFloat`: skip leading whitespace, read an optional
sign, then the longest prefix that is `Infinity` or a decimal literal with
optional fraction. -/
def scanFloat (s : String) : Option FloatScan :=
  let cs := s.toList.dropWhile jsIsSpace
  let neg : Bool := match cs with | '-' :: _ => true | _ => false
  let cs1 : List Char := match cs with
    | '-' :: r => r
    | '+' :: r => r
    | _ => cs
  if leadsWith "Infinity".toList cs1 then some ⟨neg, true, [], [], []⟩
  else
    let ip := cs1.takeWhile Char.isDigit
    let cs2 := cs1.dropWhile Char.isDigit
    let fracRest : List Char × List Char := match cs2 with
      | '.' :: r => (r.takeWhile Char.isDigit, r.dropWhile Char.isDigit)
      | _ => ([], cs2)
    if ip.isEmpty && fracRest.1.isEmpty then none
    else some ⟨neg, false, ip, fracRest.1, fracRest.2⟩

/-- Numeric value of a scanned `parseFloat` literal. -/
def scanValue (p : FloatScan) : JsNumber :=
  if p.isInf then (if p.neg then .negInf else .posInf)
  else
    let mant : ℚ := (digitsToNat p.ip : ℚ) + (digitsToNat p.fp : ℚ) / (10 : ℚ) ^ p.fp.length
    let v := applyExponent mant (parseExponent p.rest)
    .finite (if p.neg then -v else v)

/-- JavaScript `parseFloat`: skip leading whitespace, read an optional sign,
then the longest prefix that is `Infinity` or a decimal literal with optional
fraction and exponent; `NaN` when no such prefix exists. -/
def parseFloat (s : String) : JsNumber :=
  match scanFloat s with
  | none => .nan
  | some p => scanValue p

/-- The synchronous decision the conversion effect takes before any request:
either clear the result and rate, set the error message and return without a
network request, or schedule the debounced request. -/
inductive ConvDecision where
  | clearWithError (msg : String)
  | scheduleRequest (num : JsNumber)
deriving DecidableEq, Repr

/-- The inline validation message of the conversion effect. -/
def validationMessage : String := "Enter a valid amount (> 0) and pick currencies."

/-- Validation step of the conversion effect (`Converter.jsx` lines 99-106):
`num = parseFloat(amount)`; on `!from || !to || isNaN(num) || num <= 0` the
result and rate are cleared, the error is the validation message when the
amount string is non-empty and the empty string otherwise, and no request is
issued; otherwise the debounced request is scheduled with `num`. -/
def conversionEffectDecision (amount srcC tgtC : String) : ConvDecision :=
  let num := parseFloat amount
  if srcC = "" || tgtC = "" || jsIsNaN num || jsLeZero num then
    .clearWithError (if amount ≠ "" then validationMessage else "")
  else
    .scheduleRequest num

/-- The five conversion attempts of `convertWithFallback`, in source order:
exchangerate.host `/convert`, exchangerate.host `/latest`, then the three
Frankfurter URL variants in their listed order (api.frankfurter.app with
amount, api.frankfurter.dev with amount, api.frankfurter.app rate-only). -/
inductive Attempt where
  | erhConvert
  | erhLatest
  | frankAppAmount
  | frankDevAmount
  | frankAppRate
deriving DecidableEq, Repr

/-- The Frankfurter URL variants in the order of the `frankUrls` array. -/
def frankAttempts : List Attempt := [.frankAppAmount, .frankDevAmount, .frankAppRate]

/-- All attempts in the order `convertWithFallback` tries them. -/
def attemptList : List Attempt := [.erhConvert, .erhLatest] ++ frankAttempts

/-- Outcome of one `fetch` (plus `res.text()`): a rejection (network failure,
cross-origin failure, or abort), or a response body text. -/
inductive FetchResult where
  | netError
  | response (text : String)

/-- The network and parsing environment of one `convertWithFallback` call:
what each attempt's fetch yields, and what `JSON.parse` yields on a given
non-empty body text (`none` meaning the parse throws). -/
structure Env where
  fetch : Attempt → FetchResult
  parse : String → Option Json

/-- Embedding of `safeJson`: read the body as text; an empty body yields `null` without
parsing; otherwise the text is parsed, and a parse failure is rethrown. -/
def safeJson (parse : String → Option Json) (text : String) : Except Unit (Option Json) :=
  if text = "" then .ok none
  else
    match parse text with
    | some j => .ok (some j)
    | none => .error ()

/-- The value a JavaScript exception carries: its `name` and `message`. -/
structure JsError where
  name : String
  message : String
deriving DecidableEq, Repr

/-- The error thrown when every attempt has failed; a plain `Error`, so its
name is `Error`, not `AbortError`. -/
def allProvidersFailedError : JsError :=
  ⟨"Error", "All providers failed (network, CORS, or API returned unexpected structure)."⟩

/-- The object `convertWithFallback` resolves with on success. -/
structure ConvResult where
  result : ℚ
  rate : Json
  provider : String
  raw : Json

/-- Evaluation of `data.info?.rate` with nullish coalescing: `some v` exactly when the
chain produces a non-nullish value `v`, which is then used as the rate. -/
def infoRate (j : Json) : Option Json :=
  match getField j "info" with
  | none => none
  | some .null => none
  | some info =>
    match getField info "rate" with
    | none => none
    | some .null => none
    | some v => some v

/-- Validity check and result of the exchangerate.host `/convert` attempt on
the parsed body `d`: accepted when `data && data.success === true &&
typeof data.result === "number"`; the result is the provider's `result` and
the rate is `data.info?.rate ?? data.result / num`. -/
def erhConvertCheck (num : ℚ) (d : Option Json) : Option ConvResult :=
  match d with
  | none => none
  | some j =>
    if jsTruthy j then
      match getField j "success", getField j "result" with
      | some (.bool true), some (.num q) =>
        some ⟨q, (infoRate j).getD (.num (q / num)), "exchangerate.host", j⟩
      | _, _ => none
    else none

/-- The `data.rates && typeof data.rates[to] === "number"` part shared by
the latest-rate checks: on success the result is `num * r` and the rate `r`,
tagged with the given provider string. -/
def ratesResult (num : ℚ) (tgt : String) (j : Json) (provider : String) : Option ConvResult :=
  match getField j "rates" with
  | some rates =>
    if jsTruthy rates then
      match getField rates tgt with
      | some (.num r) => some ⟨num * r, .num r, provider, j⟩
      | _ => none
    else none
  | none => none

/-- Validity check and result of the exchangerate.host `/latest` attempt:
accepted when `data && data.success === true && data.rates &&
typeof data.rates[to] === "number"`; result `num * r`, rate `r`. -/
def erhLatestCheck (num : ℚ) (tgt : String) (d : Option Json) : Option ConvResult :=
  match d with
  | none => none
  | some j =>
    if jsTruthy j then
      match getField j "success" with
      | some (.bool true) => ratesResult num tgt j "exchangerate.host-latest"
      | _ => none
    else none

/-- Validity check and result of a Frankfurter attempt: accepted when
`data && data.rates && typeof data.rates[to] === "number"`; result `num * r`,
rate `r`. -/
def frankCheck (num : ℚ) (tgt : String) (d : Option Json) : Option ConvResult :=
  match d with
  | none => none
  | some j =>
    if jsTruthy j then ratesResult num tgt j "frankfurter" else none

/-- The structural-validity check the source applies to attempt `a`. -/
def attemptCheck (num : ℚ) (tgt : String) (a : Attempt) (d : Option Json) : Option ConvResult :=
  match a with
  | .erhConvert => erhConvertCheck num d
  | .erhLatest => erhLatestCheck num tgt d
  | .frankAppAmount => frankCheck num tgt d
  | .frankDevAmount => frankCheck num tgt d
  | .frankAppRate => frankCheck num tgt d

/-- The parsed body one attempt yields, with every fetch or parse exception
caught by the per-attempt `try`/`catch` (`none`). -/
def attemptData (env : Env) (a : Attempt) : Option (Option Json) :=
  match env.fetch a with
  | .netError => none
  | .response text =>
    match safeJson env.parse text with
    | .ok d => some d
    | .error _ => none

/-- The outcome of one attempt: the conversion result when the fetch
succeeded, the body parsed and the structural check passed; `none` on any
failure (all caught locally). -/
def attemptOutcome (env : Env) (num : ℚ) (tgt : String) (a : Attempt) : Option ConvResult :=
  match attemptData env a with
  | none => none
  | some d => attemptCheck num tgt a d

/-- The `for (const url of frankUrls)` loop: first valid Frankfurter variant
wins; also records which variants were fetched. -/
def frankLoop (env : Env) (num : ℚ) (tgt : String) :
    List Attempt → Option ConvResult × List Attempt
  | [] => (none, [])
  | a :: rest =>
    match attemptOutcome env num tgt a with
    | some r => (some r, [a])
    | none =>
      let p := frankLoop env num tgt rest
      (p.1, a :: p.2)

/-- Embedding of `convertWithFallback(num, from, to, signal)`: try exchangerate.host
`/convert`, then exchangerate.host `/latest`, then the Frankfurter variants
in order; resolve with the first structurally valid outcome, otherwise throw
the single all-providers-failed error.  The second component records the
attempts actually fetched, in order. -/
def convertWithFallback (env : Env) (num : ℚ) (srcC tgtC : String) :
    Except JsError ConvResult × List Attempt :=
  match attemptOutcome env num tgtC .erhConvert with
  | some r => (.ok r, [.erhConvert])
  | none =>
    match attemptOutcome env num tgtC .erhLatest with
    | some r => (.ok r, [.erhConvert, .erhLatest])
    | none =>
      match frankLoop env num tgtC frankAttempts with
      | (some r, tr) => (.ok r, .erhConvert :: .erhLatest :: tr)
      | (none, tr) => (.error allProvidersFailedError, .erhConvert :: .erhLatest :: tr)

/-- Prefix of a list up to and including the first element satisfying `p`
(the whole list when none does). -/
def firstTried (p : Attempt → Bool) : List Attempt → List Attempt
  | [] => []
  | a :: rest => if p a then [a] else a :: firstTried p rest

/-- What the conversion effect's `catch` does to UI state: an `AbortError`
is ignored; any other error clears result and rate and shows the error
message (or a default when the message is empty). -/
inductive UIErrorUpdate where
  | suppressed
  | showError (msg : String)
deriving DecidableEq, Repr

/-- The `catch (err)` handler of the conversion effect (`Converter.jsx`
lines 136-144). -/
def handleConversionError (e : JsError) : UIErrorUpdate :=
  if e.name = "AbortError" then .suppressed
  else .showError (if e.message ≠ "" then e.message else "Conversion failed (network/API).")

/-- The catalog-load attempts of `loadCurrencies`, in source order: the
exchangerate.host `/symbols` endpoint, then the three Frankfurter
`currencies` URL variants of the `frankUrls` array. -/
inductive CatAttempt where
  | erhSymbols
  | frankV1App
  | frankV1Dev
  | frankApp
deriving DecidableEq, Repr

/-- The Frankfurter currency-list URL variants in their listed order. -/
def frankCatAttempts : List CatAttempt := [.frankV1App, .frankV1Dev, .frankApp]

/-- Environment of one `loadCurrencies` run: what `await r.json()` yields for
each endpoint (`none` when the fetch or the JSON parse rejects). -/
structure CatEnv where
  fetchJson : CatAttempt → Option Json

/-- Outcome of `loadCurrencies`: a catalog was set, or the load error was
shown. -/
inductive CatalogOutcome where
  | catalog (codes : List String)
  | loadError (msg : String)

/-- The error message shown when every catalog source failed. -/
def catalogLoadFailMessage : String := "Unable to load currency list (network / API)."

/-- Lexicographic comparison of character lists, as JavaScript `.sort()`
compares strings by code units. -/
def lexLeChars : List Char → List Char → Bool
  | [], _ => true
  | _ :: _, [] => false
  | a :: as, b :: bs => if a = b then lexLeChars as bs else decide (a < b)

/-- String comparison used by the default `.sort()` comparator. -/
def strLe (a b : String) : Bool :=
  lexLeChars a.toList b.toList

/-- The `.sort()` order as a decidable relation. -/
def strLeRel (a b : String) : Prop := strLe a b = true

instance : DecidableRel strLeRel := fun a b => by
  unfold strLeRel
  infer_instance

/-- JavaScript `.sort()` on a list of strings: sort by the default
lexicographic comparator. -/
def sortStrings (l : List String) : List String :=
  l.insertionSort strLeRel

/-- The exchangerate.host branch check `d && d.symbols`: accepted whenever
the parsed body is truthy and has a truthy `symbols` field — with no
non-emptiness requirement — and the catalog is `Object.keys(d.symbols).sort()`. -/
def symbolsAccept (d : Json) : Option (List String) :=
  if jsTruthy d then
    match getField d "symbols" with
    | some syms => if jsTruthy syms then some (sortStrings (jsObjectKeys syms)) else none
    | none => none
  else none

/-- The `typeof d === "object"` test on a parsed JSON value (`null` included). -/
def jsTypeofIsObject : Json → Bool
  | .obj _ => true
  | .arr _ => true
  | .null => true
  | _ => false

/-- The Frankfurter branch check `d && typeof d === "object" &&
Object.keys(d).length > 0`: the catalog is `Object.keys(d).sort()`. -/
def currenciesAccept (d : Json) : Option (List String) :=
  if jsTruthy d && jsTypeofIsObject d && decide (0 < (jsObjectKeys d).length) then
    some (sortStrings (jsObjectKeys d))
  else none

/-- The `for (const url of frankUrls)` loop of `loadCurrencies`: first valid
variant wins; also records which variants were fetched. -/
def frankCatLoop (env : CatEnv) : List CatAttempt → Option (List String) × List CatAttempt
  | [] => (none, [])
  | a :: rest =>
    match env.fetchJson a with
    | none =>
      let p := frankCatLoop env rest
      (p.1, a :: p.2)
    | some d =>
      match currenciesAccept d with
      | some codes => (some codes, [a])
      | none =>
        let p := frankCatLoop env rest
        (p.1, a :: p.2)

/-- Embedding of `loadCurrencies` (uncancelled run): try exchangerate.host `/symbols`;
when its response passes `d && d.symbols`, set the sorted keys of `d.symbols`
and return; otherwise try the Frankfurter variants in order and use the first
non-empty object; if all fail, show the catalog load error.  The second
component records the endpoints actually fetched, in order. -/
def loadCurrencies (env : CatEnv) : CatalogOutcome × List CatAttempt :=
  match (env.fetchJson .erhSymbols).bind symbolsAccept with
  | some codes => (.catalog codes, [.erhSymbols])
  | none =>
    match frankCatLoop env frankCatAttempts with
    | (some codes, tr) => (.catalog codes, .erhSymbols :: tr)
    | (none, tr) => (.loadError catalogLoadFailMessage, .erhSymbols :: tr)

/-- Prefix of a catalog-attempt list up to and including the first element
satisfying `p` (the whole list when none does). -/
def firstCatTried (p : CatAttempt → Bool) : List CatAttempt → List CatAttempt
  | [] => []
  | a :: rest => if p a then [a] else a :: firstCatTried p rest

/-! ### Concrete environments used by witnesses and counterexamples -/

/-- The fallback scenario of the spec: exchangerate.host `/latest` responds
with success and rate 82.5 for the target INR. -/
def scenarioLatestBody : Json :=
  .obj [("success", .bool true), ("rates", .obj [("INR", .num (165 / 2))])]

/-- Environment where the `/convert` attempt fails on the network and the
`/latest` attempt returns `scenarioLatestBody`. -/
def scenarioEnv : Env where
  fetch := fun a =>
    match a with
    | .erhConvert => .netError
    | .erhLatest => .response "latest-body"
    | _ => .netError
  parse := fun t => if t = "latest-body" then some scenarioLatestBody else none

/-- Environment where every fetch rejects (network failure on each attempt). -/
def failEnv : Env where
  fetch := fun _ => .netError
  parse := fun _ => none

/-- Environment modelling a conversion whose cancellation token has fired:
each `fetch(url, signal)` rejects with an `AbortError`, which the
per-attempt `catch` swallows exactly like a network failure. -/
def abortedEnv : Env where
  fetch := fun _ => .netError
  parse := fun _ => none

/-- Environment where every attempt returns a non-empty body that is not
valid JSON, so each `safeJson` call throws a parse error. -/
def badParseEnv : Env where
  fetch := fun _ => .response "not-json"
  parse := fun _ => none

/-- A `/convert` response body with success and a numeric result but no
`info` object. -/
def cvtBody : Json :=
  .obj [("success", .bool true), ("result", .num 825)]

/-- Catalog environment where exchangerate.host answers with an empty
`symbols` mapping while the first Frankfurter variant would supply a
non-empty catalog. -/
def emptySymbolsEnv : CatEnv where
  fetchJson := fun a =>
    match a with
    | .erhSymbols => some (.obj [("symbols", .obj [])])
    | .frankV1App => some (.obj [("EUR", .str "Euro"), ("USD", .str "US Dollar")])
    | _ => none

/-- Catalog environment where the exchangerate.host fetch rejects and the
first Frankfurter variant returns a non-empty currency mapping. -/
def frankOnlyEnv : CatEnv where
  fetchJson := fun a =>
    match a with
    | .erhSymbols => none
    | .frankV1App => some (.obj [("USD", .str "US Dollar"), ("EUR", .str "Euro")])
    | _ => none

/-! ### Helper lemmas -/

/-- A field access can only succeed on an object, which is truthy. -/
theorem jsTruthy_of_getField {j : Json} {k : String} {v : Json}
    (h : getField j k = some v) : jsTruthy j = true := by
  cases j <;> simp [getField, jsTruthy] at h ⊢

/-- Every structural check rejects a `null` body. -/
theorem attemptCheck_none (num : ℚ) (tgt : String) (a : Attempt) :
    attemptCheck num tgt a none = none := by
  cases a <;> rfl

/-- If the fetch of an attempt yields a body whose parse fails, the attempt
yields no data. -/
theorem attemptData_none_of_parse_fail {env : Env} {a : Attempt} {text : String}
    (hf : env.fetch a = .response text) (hp : env.parse text = none) :
    attemptData env a = none ∨ attemptData env a = some none := by
  rw [attemptData, hf]
  by_cases ht : text = ""
  · right
    simp [safeJson, ht]
  · left
    simp [safeJson, ht, hp]

/-- Characterization of a successful `rates` check. -/
theorem ratesResult_eq_some {num : ℚ} {tgt provider : String} {j : Json} {res : ConvResult}
    (h : ratesResult num tgt j provider = some res) :
    ∃ r, (getField j "rates").bind (fun rs => getField rs tgt) = some (.num r) ∧
      res = ⟨num * r, .num r, provider, j⟩ := by
  rw [ratesResult] at h
  split at h
  · rename_i rates hrates
    split at h
    · split at h
      · rename_i r hr
        refine ⟨r, ?_, (Option.some_inj.mp h).symm⟩
        rw [hrates]
        simpa using hr
      · exact Option.noConfusion h
    · exact Option.noConfusion h
  · exact Option.noConfusion h

/-- Characterization of a successful exchangerate.host `/latest` check. -/
theorem erhLatestCheck_eq_some {num : ℚ} {tgt : String} {d : Option Json} {res : ConvResult}
    (h : erhLatestCheck num tgt d = some res) :
    ∃ j r, d = some j ∧
      (getField j "rates").bind (fun rs => getField rs tgt) = some (.num r) ∧
      res = ⟨num * r, .num r, "exchangerate.host-latest", j⟩ := by
  match d with
  | none => exact Option.noConfusion h
  | some j =>
    rw [erhLatestCheck] at h
    split at h
    · split at h
      · obtain ⟨r, hr, hres⟩ := ratesResult_eq_some h
        exact ⟨j, r, rfl, hr, hres⟩
      · exact Option.noConfusion h
    · exact Option.noConfusion h

/-- Characterization of a successful Frankfurter check. -/
theorem frankCheck_eq_some {num : ℚ} {tgt : String} {d : Option Json} {res : ConvResult}
    (h : frankCheck num tgt d = some res) :
    ∃ j r, d = some j ∧
      (getField j "rates").bind (fun rs => getField rs tgt) = some (.num r) ∧
      res = ⟨num * r, .num r, "frankfurter", j⟩ := by
  match d with
  | none => exact Option.noConfusion h
  | some j =>
    rw [frankCheck] at h
    split at h
    · obtain ⟨r, hr, hres⟩ := ratesResult_eq_some h
      exact ⟨j, r, rfl, hr, hres⟩
    · exact Option.noConfusion h

/-- Concrete evaluation: `parseFloat("1") = 1`. -/
theorem parseFloat_one : parseFloat "1" = .finite 1 := by
  have h : scanFloat "1" = some ⟨false, false, ['1'], [], []⟩ := by decide
  simp only [parseFloat, h]
  norm_num [scanValue, applyExponent, parseExponent,
    show digitsToNat ['1'] = 1 from by decide,
    show digitsToNat ([] : List Char) = 0 from by decide]

/-- Concrete evaluation: `parseFloat("0") = 0`. -/
theorem parseFloat_zero : parseFloat "0" = .finite 0 := by
  have h : scanFloat "0" = some ⟨false, false, ['0'], [], []⟩ := by decide
  simp only [parseFloat, h]
  norm_num [scanValue, applyExponent, parseExponent,
    show digitsToNat ['0'] = 0 from by decide,
    show digitsToNat ([] : List Char) = 0 from by decide]

/-! ### Claim theorems -/

/-- C1: `convertWithFallback` tries the provider endpoints strictly in the
fixed order exchangerate.host `/convert`, exchangerate.host `/latest`, then
the Frankfurter variants in their listed order; for every environment it
returns the outcome of the first attempt whose response is structurally
valid, and the trace of fetched attempts stops at that first success, so no
later attempt is consulted. -/
theorem convertWithFallback_first_valid_wins (env : Env) (num : ℚ) (srcC tgtC : String) :
    convertWithFallback env num srcC tgtC =
      ((match attemptList.findSome? (attemptOutcome env num tgtC) with
        | some r => Except.ok r
        | none => Except.error allProvidersFailedError),
       firstTried (fun a => (attemptOutcome env num tgtC a).isSome) attemptList) := by
  rcases h1 : attemptOutcome env num tgtC .erhConvert with _ | r1 <;>
  rcases h2 : attemptOutcome env num tgtC .erhLatest with _ | r2 <;>
  rcases h3 : attemptOutcome env num tgtC .frankAppAmount with _ | r3 <;>
  rcases h4 : attemptOutcome env num tgtC .frankDevAmount with _ | r4 <;>
  rcases h5 : attemptOutcome env num tgtC .frankAppRate with _ | r5 <;>
  simp [convertWithFallback, frankLoop, attemptList, frankAttempts, firstTried,
    List.findSome?, h1, h2, h3, h4, h5]

/-- C2 counterexample: with amount `"1"` and the same non-empty currency
`"USD"` as both source and target, the conversion effect schedules a network
request instead of rejecting — the validation has no distinctness check, so
the claim that equal source and target never issue a request is false. -/
theorem sameCurrency_request_issued :
    conversionEffectDecision "1" "USD" "USD" = .scheduleRequest (.finite 1) := by
  simp [conversionEffectDecision, parseFloat_one, jsIsNaN, jsLeZero]

/-- C2 amended: the conversion effect validates only that source and target
are non-empty and that the amount parses positive; in particular, when source
and target are the same non-empty code and the amount is a positive finite
number, the debounced request is scheduled and no validation error is
reported. -/
theorem validation_no_distinctness_check (amount s : String) (q : ℚ)
    (hs : s ≠ "") (hq : parseFloat amount = .finite q) (hpos : 0 < q) :
    conversionEffectDecision amount s s = .scheduleRequest (.finite q) := by
  simp [conversionEffectDecision, hq, hs, jsIsNaN, jsLeZero, not_le.mpr hpos]

/-- C2 amended, witness at a concrete input. -/
theorem validation_no_distinctness_check_witness :
    conversionEffectDecision "1" "EUR" "EUR" = .scheduleRequest (.finite 1) :=
  validation_no_distinctness_check "1" "EUR" 1 (by decide) parseFloat_one (by norm_num)

/-- C5: when every attempt fails — whether by network error, parse error, or
a structurally invalid response, which the environment folds together
indistinguishably — `convertWithFallback` throws the single constant
all-providers-failed error, after trying the whole chain (no per-attempt
failure aborts it early). -/
theorem all_attempts_fail_single_error (env : Env) (num : ℚ) (srcC tgtC : String)
    (h : ∀ a ∈ attemptList, attemptOutcome env num tgtC a = none) :
    convertWithFallback env num srcC tgtC = (.error allProvidersFailedError, attemptList) := by
  have h1 := h .erhConvert (by simp [attemptList, frankAttempts])
  have h2 := h .erhLatest (by simp [attemptList, frankAttempts])
  have h3 := h .frankAppAmount (by simp [attemptList, frankAttempts])
  have h4 := h .frankDevAmount (by simp [attemptList, frankAttempts])
  have h5 := h .frankAppRate (by simp [attemptList, frankAttempts])
  simp [convertWithFallback, frankLoop, attemptList, frankAttempts, h1, h2, h3, h4, h5]

/-- C5 witness: in the environment where every fetch rejects, the call fails
with the single unavailability error after trying all five attempts. -/
theorem all_attempts_fail_single_error_witness :
    convertWithFallback failEnv 10 "USD" "INR" = (.error allProvidersFailedError, attemptList) :=
  all_attempts_fail_single_error failEnv 10 "USD" "INR" (by intro a _; cases a <;> rfl)

/-- C9: when the cancellation token has fired, every fetch rejects with an
`AbortError` that the per-attempt `catch` swallows; `convertWithFallback`
then throws the fresh all-providers-failed `Error`, whose name is not
`AbortError`, so the caller's suppression branch does not fire and the
cancelled attempt surfaces a UI-visible error — contradicting the claim that
a cancelled attempt is silently suppressed. -/
theorem aborted_conversion_surfaces_error :
    (convertWithFallback abortedEnv 10 "USD" "INR").1 = .error allProvidersFailedError ∧
    allProvidersFailedError.name ≠ "AbortError" ∧
    handleConversionError allProvidersFailedError =
      .showError "All providers failed (network, CORS, or API returned unexpected structure)." :=
  ⟨rfl, by decide, rfl⟩

/-- C8 counterexample: the empty amount string is non-numeric
(`parseFloat("")` is `NaN`), yet the effect sets the error message to the
empty string — no validation error is shown — refuting the claim that every
non-numeric amount produces a validation error. -/
theorem emptyAmount_no_error_message :
    conversionEffectDecision "" "USD" "INR" = .clearWithError "" := by decide

/-- C8 amended: for every amount that is non-numeric or non-positive, the
result and rate are cleared and no request is issued; the validation message
is shown exactly when the amount string is non-empty, while the empty string
clears the error message. -/
theorem invalid_amount_clears_and_flags (amount srcC tgtC : String)
    (h : jsIsNaN (parseFloat amount) = true ∨ jsLeZero (parseFloat amount) = true) :
    conversionEffectDecision amount srcC tgtC =
      .clearWithError (if amount = "" then "" else validationMessage) := by
  by_cases ha : amount = ""
  · subst ha
    simp [conversionEffectDecision, show parseFloat "" = .nan from by decide, jsIsNaN]
  · rcases h with h | h <;> simp [conversionEffectDecision, h, ha]

/-- C8 amended, witness at a concrete input. -/
theorem invalid_amount_clears_and_flags_witness :
    conversionEffectDecision "0" "EUR" "JPY" = .clearWithError validationMessage := by
  have hz : jsLeZero (parseFloat "0") = true := by
    rw [parseFloat_zero]
    simp [jsLeZero]
  have h := invalid_amount_clears_and_flags "0" "EUR" "JPY" (Or.inr hz)
  simpa using h

/-- C10: the empty amount string clears the result and rate and sets the
error message to the empty string (no validation message), while every other
non-numeric or non-positive amount sets the validation message; in both
cases the effect returns before scheduling a request. -/
theorem amount_validation_messages :
    (∀ srcC tgtC : String, conversionEffectDecision "" srcC tgtC = .clearWithError "") ∧
    (∀ amount srcC tgtC : String, amount ≠ "" →
      (jsIsNaN (parseFloat amount) = true ∨ jsLeZero (parseFloat amount) = true) →
      conversionEffectDecision amount srcC tgtC = .clearWithError validationMessage) := by
  constructor
  · intro s t
    simp [conversionEffectDecision, show parseFloat "" = .nan from by decide, jsIsNaN]
  · intro amount s t ha h
    rcases h with h | h <;> simp [conversionEffectDecision, h, ha]

/-- C10 witness at concrete inputs: the empty amount and a non-numeric amount. -/
theorem amount_validation_messages_witness :
    conversionEffectDecision "" "GBP" "JPY" = .clearWithError "" ∧
    conversionEffectDecision "abc" "GBP" "JPY" = .clearWithError validationMessage :=
  ⟨amount_validation_messages.1 "GBP" "JPY",
   amount_validation_messages.2 "abc" "GBP" "JPY" (by decide)
     (Or.inl (by decide))⟩

/-- Characterization of a successful `/convert` check. -/
theorem erhConvertCheck_eq_some {num : ℚ} {d : Option Json} {res : ConvResult}
    (h : erhConvertCheck num d = some res) :
    ∃ j q, d = some j ∧ getField j "success" = some (.bool true) ∧
      getField j "result" = some (.num q) ∧
      res = ⟨q, (infoRate j).getD (.num (q / num)), "exchangerate.host", j⟩ := by
  match d with
  | none => exact Option.noConfusion h
  | some j =>
    rw [erhConvertCheck] at h
    split at h
    · split at h
      · rename_i q hs hr
        exact ⟨j, q, rfl, hs, hr, (Option.some_inj.mp h).symm⟩
      · exact Option.noConfusion h
    · exact Option.noConfusion h

/-- C4: the `/convert` attempt is accepted exactly when the parsed response
has `success === true` and a numeric `result`; in that case the returned
result is the provider's `result`, and the returned rate is the provider's
`info.rate` when that is present (non-nullish), otherwise `result / amount`. -/
theorem erhConvert_acceptance (num : ℚ) (d : Option Json) :
    ((erhConvertCheck num d).isSome = true ↔
      ∃ j q, d = some j ∧ getField j "success" = some (.bool true) ∧
        getField j "result" = some (.num q)) ∧
    (∀ j q, d = some j → getField j "success" = some (.bool true) →
      getField j "result" = some (.num q) →
      erhConvertCheck num d =
        some ⟨q, (infoRate j).getD (.num (q / num)), "exchangerate.host", j⟩) := by
  have accept : ∀ j q, d = some j → getField j "success" = some (.bool true) →
      getField j "result" = some (.num q) →
      erhConvertCheck num d =
        some ⟨q, (infoRate j).getD (.num (q / num)), "exchangerate.host", j⟩ := by
    intro j q hd hs hr
    subst hd
    have htr : jsTruthy j = true := jsTruthy_of_getField hs
    simp only [erhConvertCheck, htr, if_true]
    rw [hs, hr]
  refine ⟨⟨?_, ?_⟩, accept⟩
  · intro h
    obtain ⟨res, hres⟩ := Option.isSome_iff_exists.mp h
    obtain ⟨j, q, hd, hs, hr, _⟩ := erhConvertCheck_eq_some hres
    exact ⟨j, q, hd, hs, hr⟩
  · rintro ⟨j, q, hd, hs, hr⟩
    rw [accept j q hd hs hr]
    rfl

/-- C4 witness: a concrete successful `/convert` body with no `info` object;
the rate falls back to `result / amount`. -/
theorem erhConvert_acceptance_witness :
    erhConvertCheck 10 (some cvtBody) =
      some ⟨825, (infoRate cvtBody).getD (.num (825 / 10)), "exchangerate.host", cvtBody⟩ :=
  (erhConvert_acceptance 10 (some cvtBody)).2 cvtBody 825 rfl rfl rfl

/-- The attempts that use a latest-rate endpoint: exchangerate.host
`/latest` and the three Frankfurter variants. -/
def latestAttempts : List Attempt :=
  [.erhLatest, .frankAppAmount, .frankDevAmount, .frankAppRate]

/-- C3: for valid inputs, whenever a latest-rate attempt is structurally
valid with numeric rate `r` for the target, the returned result is
`amount * r` and the returned rate is `r`, with the provider tag naming the
latest-rate source; in particular, in the scenario where `/convert` fails
and `/latest` answers with rate 82.5 for USD→INR, converting 10 USD yields
825 via the `exchangerate.host-latest` provider tag. -/
theorem latest_rate_result_mul :
    (∀ (num : ℚ) (srcC tgtC : String) (env : Env) (a : Attempt) (res : ConvResult),
      0 < num → srcC ≠ tgtC → a ∈ latestAttempts →
      attemptOutcome env num tgtC a = some res →
      ∃ j r, attemptData env a = some (some j) ∧
        (getField j "rates").bind (fun rs => getField rs tgtC) = some (.num r) ∧
        res.result = num * r ∧ res.rate = .num r ∧
        res.provider =
          (if a = .erhLatest then "exchangerate.host-latest" else "frankfurter")) ∧
    convertWithFallback scenarioEnv 10 "USD" "INR" =
      (.ok ⟨825, .num (165 / 2), "exchangerate.host-latest", scenarioLatestBody⟩,
       [.erhConvert, .erhLatest]) := by
  constructor
  · intro num srcC tgtC env a res hpos hne ha h
    rw [attemptOutcome] at h
    rcases hd : attemptData env a with _ | d
    · rw [hd] at h
      exact Option.noConfusion h
    · rw [hd] at h
      fin_cases ha
      · obtain ⟨j, r, hdj, hr, hres⟩ := erhLatestCheck_eq_some h
        subst hdj hres
        exact ⟨j, r, rfl, hr, rfl, rfl, by simp⟩
      · obtain ⟨j, r, hdj, hr, hres⟩ := frankCheck_eq_some h
        subst hdj hres
        exact ⟨j, r, rfl, hr, rfl, rfl, by simp⟩
      · obtain ⟨j, r, hdj, hr, hres⟩ := frankCheck_eq_some h
        subst hdj hres
        exact ⟨j, r, rfl, hr, rfl, rfl, by simp⟩
      · obtain ⟨j, r, hdj, hr, hres⟩ := frankCheck_eq_some h
        subst hdj hres
        exact ⟨j, r, rfl, hr, rfl, rfl, by simp⟩
  · have h : convertWithFallback scenarioEnv 10 "USD" "INR" =
        (.ok ⟨10 * (165 / 2 : ℚ), .num (165 / 2), "exchangerate.host-latest",
          scenarioLatestBody⟩,
         [.erhConvert, .erhLatest]) := rfl
    rw [h]
    norm_num

/-- C3 witness: the general part applied to the concrete fallback scenario. -/
theorem latest_rate_result_mul_witness :
    ∃ j r, attemptData scenarioEnv .erhLatest = some (some j) ∧
      (getField j "rates").bind (fun rs => getField rs "INR") = some (.num r) ∧
      (825 : ℚ) = 10 * r ∧ (Json.num (165 / 2) : Json) = .num r ∧
      ("exchangerate.host-latest" : String) =
        (if Attempt.erhLatest = Attempt.erhLatest
          then "exchangerate.host-latest" else "frankfurter") := by
  refine latest_rate_result_mul.1 10 "USD" "INR" scenarioEnv .erhLatest
    ⟨825, .num (165 / 2), "exchangerate.host-latest", scenarioLatestBody⟩
    (by norm_num) (by decide) (by decide) ?_
  have h : attemptOutcome scenarioEnv 10 "INR" .erhLatest =
      some ⟨10 * (165 / 2 : ℚ), .num (165 / 2), "exchangerate.host-latest",
        scenarioLatestBody⟩ := rfl
  rw [h]
  norm_num

/-- A parse failure on an attempt is caught like a fetch failure: the
attempt yields no result. -/
theorem attemptOutcome_none_of_parse_fail {env : Env} {a : Attempt} {text : String}
    (num : ℚ) (tgt : String)
    (hf : env.fetch a = .response text) (hp : env.parse text = none) :
    attemptOutcome env num tgt a = none := by
  rcases attemptData_none_of_parse_fail hf hp with h | h <;>
    simp [attemptOutcome, h, attemptCheck_none]

/-- When the first attempt fails, the chain proceeds: the `/latest` attempt
is fetched next. -/
theorem erhLatest_tried_of_first_none {env : Env} {num : ℚ} {srcC tgtC : String}
    (h : attemptOutcome env num tgtC .erhConvert = none) :
    Attempt.erhLatest ∈ (convertWithFallback env num srcC tgtC).2 := by
  rcases h2 : attemptOutcome env num tgtC .erhLatest with _ | r2
  · rcases hfl : frankLoop env num tgtC frankAttempts with ⟨fr, tr⟩
    cases fr <;> simp [convertWithFallback, h, h2, hfl]
  · simp [convertWithFallback, h, h2]

/-- C7: `safeJson` reads the body as text and parses it only when non-empty
(an empty body yields `null` without parsing, a non-empty body is parsed and
a parse failure is rethrown); and for every attempt a parse failure is
treated like a fetch failure — the attempt yields nothing and the chain
proceeds to the next provider instead of raising a hard error. -/
theorem safeJson_defensive_parse :
    (∀ p : String → Option Json, safeJson p "" = .ok none) ∧
    (∀ (p : String → Option Json) (text : String) (j : Json),
      text ≠ "" → p text = some j → safeJson p text = .ok (some j)) ∧
    (∀ (p : String → Option Json) (text : String),
      text ≠ "" → p text = none → safeJson p text = .error ()) ∧
    (∀ (env : Env) (num : ℚ) (tgt : String) (a : Attempt) (text : String),
      env.fetch a = .response text → env.parse text = none →
      attemptOutcome env num tgt a = none) ∧
    (∀ (env : Env) (num : ℚ) (srcC tgtC text : String),
      env.fetch .erhConvert = .response text → env.parse text = none →
      Attempt.erhLatest ∈ (convertWithFallback env num srcC tgtC).2) := by
  refine ⟨?_, ?_, ?_, ?_, ?_⟩
  · intro p
    simp [safeJson]
  · intro p text j ht hp
    simp [safeJson, ht, hp]
  · intro p text ht hp
    simp [safeJson, ht, hp]
  · intro env num tgt a text hf hp
    exact attemptOutcome_none_of_parse_fail num tgt hf hp
  · intro env num srcC tgtC text hf hp
    exact erhLatest_tried_of_first_none (attemptOutcome_none_of_parse_fail num tgtC hf hp)

/-- C7 witness: a malformed non-empty body makes `safeJson` throw, and with
such a body on the `/convert` attempt the chain still reaches `/latest`. -/
theorem safeJson_defensive_parse_witness :
    safeJson (fun _ => none) "not-json" = .error () ∧
    Attempt.erhLatest ∈ (convertWithFallback badParseEnv 10 "USD" "INR").2 :=
  ⟨safeJson_defensive_parse.2.2.1 (fun _ => none) "not-json" (by decide) rfl,
   safeJson_defensive_parse.2.2.2.2 badParseEnv 10 "USD" "INR" "not-json" rfl rfl⟩

/-- The lexicographic comparison is total. -/
theorem lexLeChars_total : ∀ a b : List Char, lexLeChars a b = true ∨ lexLeChars b a = true
  | [], _ => Or.inl rfl
  | _ :: _, [] => Or.inr rfl
  | a :: as, b :: bs => by
    by_cases hab : a = b
    · subst hab
      rcases lexLeChars_total as bs with h | h
      · left
        simpa [lexLeChars] using h
      · right
        simpa [lexLeChars] using h
    · rcases lt_or_gt_of_ne hab with h | h
      · left
        simp [lexLeChars, hab, h]
      · right
        simp [lexLeChars, Ne.symm hab, h]

/-- The lexicographic comparison is transitive. -/
theorem lexLeChars_trans : ∀ a b c : List Char,
    lexLeChars a b = true → lexLeChars b c = true → lexLeChars a c = true
  | [], _, _, _, _ => rfl
  | a :: as, [], c, h, _ => by simp [lexLeChars] at h
  | a :: as, b :: bs, [], _, h => by simp [lexLeChars] at h
  | a :: as, b :: bs, c :: cs, h1, h2 => by
    by_cases hab : a = b <;> by_cases hbc : b = c
    · subst hab
      subst hbc
      rw [lexLeChars] at h1 h2 ⊢
      simp only [if_pos rfl] at h1 h2 ⊢
      exact lexLeChars_trans as bs cs h1 h2
    · subst hab
      rw [lexLeChars, if_neg hbc] at h2
      rw [lexLeChars, if_neg hbc]
      exact h2
    · subst hbc
      rw [lexLeChars, if_neg hab] at h1
      rw [lexLeChars, if_neg hab]
      exact h1
    · rw [lexLeChars, if_neg hab] at h1
      rw [lexLeChars, if_neg hbc] at h2
      have hac : a < c := lt_trans (of_decide_eq_true h1) (of_decide_eq_true h2)
      rw [lexLeChars, if_neg (ne_of_lt hac)]
      exact decide_eq_true hac

instance : IsTotal String strLeRel :=
  ⟨fun a b => lexLeChars_total a.toList b.toList⟩

instance : IsTrans String strLeRel :=
  ⟨fun a b c => lexLeChars_trans a.toList b.toList c.toList⟩

/-- Sorting with `.sort()` returns a lexicographically sorted list. -/
theorem sortStrings_sorted (l : List String) : List.Sorted strLeRel (sortStrings l) :=
  List.sorted_insertionSort strLeRel l

/-- Sorting with `.sort()` preserves the length of the list. -/
theorem sortStrings_length (l : List String) : (sortStrings l).length = l.length :=
  (List.perm_insertionSort strLeRel l).length_eq

/-- The Frankfurter catalog loop takes the first accepted variant in order
and records the attempts tried up to and including it. -/
theorem frankCatLoop_characterize (env : CatEnv) (l : List CatAttempt) :
    frankCatLoop env l =
      (l.findSome? (fun a => (env.fetchJson a).bind currenciesAccept),
       firstCatTried (fun a => ((env.fetchJson a).bind currenciesAccept).isSome) l) := by
  induction l with
  | nil => rfl
  | cons a rest ih =>
    rcases hf : env.fetchJson a with _ | d
    · simp [frankCatLoop, hf, List.findSome?, firstCatTried, ih]
    · rcases hc : currenciesAccept d with _ | codes
      · simp [frankCatLoop, hf, hc, List.findSome?, firstCatTried, ih]
      · simp [frankCatLoop, hf, hc, List.findSome?, firstCatTried]

/-- C6 counterexample: exchangerate.host answers with an empty `symbols`
object — an empty symbol set — yet `loadCurrencies` accepts it (an empty
object is truthy), sets an empty catalog, and never attempts the Frankfurter
endpoints, even though the first of them would have supplied a non-empty
catalog; this refutes the claim that an empty symbol set triggers the
fallback. -/
theorem emptySymbols_accepted_no_fallback :
    loadCurrencies emptySymbolsEnv = (.catalog [], [.erhSymbols]) ∧
    CatAttempt.frankV1App ∉ (loadCurrencies emptySymbolsEnv).2 :=
  ⟨rfl, by decide⟩

/-- C6 amended: provider A's response is used — its `symbols` keys sorted —
whenever the `symbols` field is truthy, with no non-emptiness requirement
(an empty mapping yields an empty catalog without fallback); only when the
request fails or the `symbols` field is missing or falsy are the Frankfurter
variants attempted in their fixed hostname order, and the first response
that is a truthy object with a non-empty key set is sorted lexicographically
and used. -/
theorem catalog_fallback_characterization (env : CatEnv) :
    (∀ codes, (env.fetchJson .erhSymbols).bind symbolsAccept = some codes →
      loadCurrencies env = (.catalog codes, [.erhSymbols])) ∧
    ((env.fetchJson .erhSymbols).bind symbolsAccept = none →
      loadCurrencies env =
        ((match frankCatAttempts.findSome?
              (fun a => (env.fetchJson a).bind currenciesAccept) with
          | some codes => CatalogOutcome.catalog codes
          | none => CatalogOutcome.loadError catalogLoadFailMessage),
         CatAttempt.erhSymbols ::
           firstCatTried (fun a => ((env.fetchJson a).bind currenciesAccept).isSome)
             frankCatAttempts)) ∧
    (∀ d codes, currenciesAccept d = some codes →
      codes = sortStrings (jsObjectKeys d) ∧ codes ≠ [] ∧ List.Sorted strLeRel codes) := by
  refine ⟨?_, ?_, ?_⟩
  · intro codes h
    simp [loadCurrencies, h]
  · intro h
    rcases hfs : frankCatAttempts.findSome?
        (fun a => (env.fetchJson a).bind currenciesAccept) with _ | codes <;>
      simp [loadCurrencies, h, frankCatLoop_characterize, hfs]
  · intro d codes h
    rw [currenciesAccept] at h
    split at h
    · rename_i hcond
      have hlen : (sortStrings (jsObjectKeys d)).length = (jsObjectKeys d).length :=
        sortStrings_length _
      have hkeys : 0 < (jsObjectKeys d).length := by
        simp only [Bool.and_eq_true, decide_eq_true_eq] at hcond
        tauto
      have hcodes : codes = sortStrings (jsObjectKeys d) := (Option.some_inj.mp h).symm
      refine ⟨hcodes, ?_, hcodes ▸ sortStrings_sorted _⟩
      intro hnil
      rw [hcodes] at hnil
      rw [hnil] at hlen
      simp at hlen
      omega
    · exact Option.noConfusion h

/-- C6 amended, witness: when the exchangerate.host fetch rejects, the first
Frankfurter variant's non-empty catalog is sorted and used. -/
theorem catalog_fallback_characterization_witness :
    loadCurrencies frankOnlyEnv =
      (.catalog ["EUR", "USD"], [.erhSymbols, .frankV1App]) :=
  ((catalog_fallback_characterization frankOnlyEnv).2.1 rfl).trans rfl

end Converter
